import Mathlib

/-!
# Verification of the YourBodyPro periodic analytics cache and web client

A shallow embedding of the repository's summary subsystem and of the
frontend client code (`src/webapp/frontend/src`), together with theorems
settling the specified properties.

The repository ships only the frontend sources; the analytics backend
(period resolver, fingerprint, cache store, single-flight controller,
summary orchestrator) is described by the specification but its code is
not present. Definitions for those components are modelled from the
spec and carry a doc comment saying so. Frontend definitions are
transcribed from the TypeScript sources.
-/

namespace YourBodyPro

/-! ## Raw events and the fingerprint function (spec §4.2) -/

/-- Modelled from the spec: a `RawEvent` carries at least `id`,
`occurred_at` and a `last_modified` edit timestamp (spec §3, §6). -/
structure RawEvent where
  id : Nat
  occurredAt : Nat
  lastModified : Nat
deriving DecidableEq, Repr

/-- The sort order used before hashing: by `(occurred_at, id)`,
lexicographically (spec §4.2: "Sort events by `(occurred_at, id)`
before hashing"). -/
def eventR (a b : RawEvent) : Prop :=
  a.occurredAt < b.occurredAt ∨ (a.occurredAt = b.occurredAt ∧ a.id ≤ b.id)

instance : DecidableRel eventR := fun a b => by
  unfold eventR; infer_instance

instance : IsTotal RawEvent eventR where
  total a b := by
    unfold eventR
    omega

instance : IsTrans RawEvent eventR where
  trans a b c hab hbc := by
    unfold eventR at *
    omega

/-- Modelled from the spec: sorting step of the fingerprint function. -/
def sortEvents (events : List RawEvent) : List RawEvent :=
  List.insertionSort eventR events

/-- The per-event tuple hashed into the digest:
`(event_id, occurred_at, last_modified)` (spec §3). -/
def eventTuple (e : RawEvent) : Nat × Nat × Nat :=
  (e.id, e.occurredAt, e.lastModified)

/-- A fingerprint is either the reserved `EMPTY` value or a digest of the
sorted tuple list. The digest is modelled as the tuple list itself, i.e.
as a collision-free hash (spec §3: identical fingerprints guarantee
identical input data). -/
inductive Fingerprint where
  | empty
  | digest (tuples : List (Nat × Nat × Nat))
deriving DecidableEq, Repr

/-- Modelled from the spec: the fingerprint function (spec §4.2). The
empty period maps to the reserved `EMPTY` fingerprint; otherwise the
events are sorted by `(occurred_at, id)` and the
`(event_id, occurred_at, last_modified)` tuples are digested. -/
def fingerprint (events : List RawEvent) : Fingerprint :=
  match events with
  | [] => .empty
  | e :: es => .digest ((sortEvents (e :: es)).map eventTuple)

/-! ### Helper lemmas about sorting -/

lemma eventR_antisymm_key {a b : RawEvent} (hab : eventR a b) (hba : eventR b a) :
    a.occurredAt = b.occurredAt ∧ a.id = b.id := by
  unfold eventR at hab hba
  omega

/-- Two sorted lists that are permutations of each other and whose ids
are duplicate-free are equal. -/
lemma sorted_perm_nodup_eq :
    ∀ (l₁ l₂ : List RawEvent), l₁.Perm l₂ → l₁.Sorted eventR → l₂.Sorted eventR →
      (l₁.map RawEvent.id).Nodup → l₁ = l₂ := by
  intro l₁
  induction l₁ with
  | nil =>
    intro l₂ hp _ _ _
    exact (hp.nil_eq).symm ▸ rfl
  | cons a t₁ ih =>
    intro l₂ hp hs₁ hs₂ hnd
    cases l₂ with
    | nil => exact absurd hp.symm.nil_eq (by simp)
    | cons b t₂ =>
      simp only [List.map_cons, List.nodup_cons] at hnd
      by_cases hab : a = b
      · subst hab
        have ht : t₁.Perm t₂ := hp.cons_inv
        have he : t₁ = t₂ :=
          ih t₂ ht (List.sorted_cons.mp hs₁).2 (List.sorted_cons.mp hs₂).2 hnd.2
        rw [he]
      · have ha2 : a ∈ b :: t₂ := hp.mem_iff.mp (by simp)
        have hb1 : b ∈ a :: t₁ := hp.symm.mem_iff.mp (by simp)
        have hat2 : a ∈ t₂ := by
          rcases List.mem_cons.mp ha2 with h | h
          · exact absurd h hab
          · exact h
        have hbt1 : b ∈ t₁ := by
          rcases List.mem_cons.mp hb1 with h | h
          · exact absurd h.symm hab
          · exact h
        have hr1 : eventR a b := List.rel_of_sorted_cons hs₁ b hbt1
        have hr2 : eventR b a := List.rel_of_sorted_cons hs₂ a hat2
        have hkey := eventR_antisymm_key hr1 hr2
        exact absurd (List.mem_map.mpr ⟨b, hbt1, hkey.2.symm⟩) hnd.1

lemma sortEvents_perm (l : List RawEvent) : (sortEvents l).Perm l :=
  List.perm_insertionSort eventR l

lemma sortEvents_sorted (l : List RawEvent) : (sortEvents l).Sorted eventR :=
  List.sorted_insertionSort eventR l

lemma fingerprint_eq_digest (l : List RawEvent) (hne : l ≠ []) :
    fingerprint l = .digest ((sortEvents l).map eventTuple) := by
  cases l with
  | nil => exact absurd rfl hne
  | cons a t => rfl

lemma sortEvents_eq_of_perm {l₁ l₂ : List RawEvent} (hp : l₁.Perm l₂)
    (hnd : (l₁.map RawEvent.id).Nodup) : sortEvents l₁ = sortEvents l₂ := by
  have hperm : (sortEvents l₁).Perm (sortEvents l₂) :=
    ((sortEvents_perm l₁).trans hp).trans (sortEvents_perm l₂).symm
  refine sorted_perm_nodup_eq _ _ hperm (sortEvents_sorted l₁) (sortEvents_sorted l₂) ?_
  exact ((sortEvents_perm l₁).map RawEvent.id).nodup_iff.mpr hnd

/-- Sample event with id 1. -/
def evA : RawEvent := ⟨1, 10, 100⟩

/-- Sample event with id 2, occurring earlier than `evA`. -/
def evB : RawEvent := ⟨2, 5, 50⟩

/-- `evA` after an in-place edit: same id and occurrence time, new
`last_modified`. -/
def evAedit : RawEvent := ⟨1, 10, 999⟩

/-- C4: the fingerprint is invariant under permutation of the input
sequence (given duplicate-free event ids, as guaranteed by the event
store); it changes whenever one event's `last_modified` changes in
place; and the empty sequence maps to the reserved `EMPTY` fingerprint,
distinct from the fingerprint of every non-empty sequence. -/
theorem fingerprint_matches_spec :
    (∀ (l₁ l₂ : List RawEvent), l₁.Perm l₂ → (l₁.map RawEvent.id).Nodup →
        fingerprint l₁ = fingerprint l₂)
  ∧ (∀ (l : List RawEvent) (e eNew : RawEvent), e ∈ l → eNew.id = e.id →
        eNew.occurredAt = e.occurredAt → eNew.lastModified ≠ e.lastModified →
        fingerprint (l.map (fun x => if x.id = e.id then eNew else x)) ≠ fingerprint l)
  ∧ (∀ (l : List RawEvent), l ≠ [] → fingerprint l ≠ fingerprint []) := by
  refine ⟨?_, ?_, ?_⟩
  · intro l₁ l₂ hp hnd
    cases l₁ with
    | nil => rw [hp.nil_eq]
    | cons a t =>
      cases l₂ with
      | nil => exact absurd hp.symm.nil_eq (by simp)
      | cons b s =>
        simp only [fingerprint]
        rw [show sortEvents (a :: t) = sortEvents (b :: s) from
          sortEvents_eq_of_perm hp hnd]
  · intro l e eNew he hid hocc hlm heq
    have hne : l ≠ [] := by
      rintro rfl
      simp at he
    have hne2 : l.map (fun x => if x.id = e.id then eNew else x) ≠ [] := by
      simpa using hne
    rw [fingerprint_eq_digest _ hne2, fingerprint_eq_digest _ hne,
      Fingerprint.digest.injEq] at heq
    have hmem : eventTuple e ∈ (sortEvents l).map eventTuple :=
      List.mem_map_of_mem eventTuple ((sortEvents_perm l).mem_iff.mpr he)
    rw [← heq] at hmem
    obtain ⟨x, hx, htx⟩ := List.mem_map.mp hmem
    have hx2 : x ∈ l.map (fun x => if x.id = e.id then eNew else x) :=
      (sortEvents_perm _).mem_iff.mp hx
    obtain ⟨y, _, hy⟩ := List.mem_map.mp hx2
    by_cases hyid : y.id = e.id
    · rw [if_pos hyid] at hy
      rw [← hy] at htx
      simp only [eventTuple, Prod.mk.injEq] at htx
      exact hlm htx.2.2
    · rw [if_neg hyid] at hy
      rw [← hy] at htx
      simp only [eventTuple, Prod.mk.injEq] at htx
      exact hyid htx.1
  · intro l hne heq
    cases l with
    | nil => exact hne rfl
    | cons a t =>
      simp only [fingerprint] at heq
      exact Fingerprint.noConfusion heq

/-- Concrete witness for C4: permutation invariance, edit sensitivity
and the reserved empty fingerprint, each at explicit events. -/
theorem fingerprint_matches_spec_witness :
    fingerprint [evA, evB] = fingerprint [evB, evA]
  ∧ fingerprint ([evA].map (fun x => if x.id = evA.id then evAedit else x)) ≠ fingerprint [evA]
  ∧ fingerprint [evA] ≠ fingerprint [] :=
  ⟨fingerprint_matches_spec.1 [evA, evB] [evB, evA] (List.Perm.swap evB evA []) (by decide),
   fingerprint_matches_spec.2.1 [evA] evA evAedit (by decide) rfl rfl (by decide),
   fingerprint_matches_spec.2.2 [evA] (by decide)⟩

/-! ## Periods, artifacts and the cache store (spec §3, §4.3) -/

/-- Period type of a summary: per-day or per-ISO-week (spec §3). -/
inductive PeriodType where
  | day
  | week
deriving DecidableEq, Repr

/-- Modelled from the spec: `PeriodKey` (spec §3). Two keys are equal
iff all fields match, which the derived equality provides. -/
structure PeriodKey where
  userId : Nat
  periodType : PeriodType
  periodStart : Nat
  tzOffset : Int
deriving DecidableEq, Repr

/-- Artifact status (spec §3). `degraded` is the spec's third status (a
partial result); it is renamed here. -/
inductive Status where
  | ok
  | degraded
  | error
  | unavailable
deriving DecidableEq, Repr

/-- Modelled from the spec: `SummaryArtifact` (spec §3). `message`
carries both the optional `error_detail` and the user-facing message of
an `unavailable` response. -/
structure SummaryArtifact where
  key : PeriodKey
  fingerprint : Fingerprint
  generatedAt : Nat
  status : Status
  payload : String
  message : Option String
deriving DecidableEq, Repr

/-- Modelled from the spec: the cache store's `get` (spec §4.3), over an
association list keyed by `PeriodKey`. -/
def cacheGet (cache : List (PeriodKey × SummaryArtifact)) (k : PeriodKey) :
    Option SummaryArtifact :=
  match cache.find? (fun p => p.1 == k) with
  | some p => some p.2
  | none => none

/-- Modelled from the spec: the cache store's atomic per-key upsert
(spec §4.3, §6). -/
def cachePut (cache : List (PeriodKey × SummaryArtifact)) (k : PeriodKey)
    (a : SummaryArtifact) : List (PeriodKey × SummaryArtifact) :=
  (k, a) :: cache.filter (fun p => !(p.1 == k))

/-! ## The summary orchestrator (spec §4.5, §4.6) -/

/-- The environment of one request: the period's events as read from
the event store, the analysis provider, the provider-visible clock
`now`, and the user-local calendar data used by the current-day special
case. -/
structure Env where
  events : List RawEvent
  provider : List RawEvent → Except String String
  now : Nat
  today : Nat
  localNow : Nat
  triggerTime : Nat

/-- A resolved request: the period key plus the `force` flag. -/
structure Request where
  key : PeriodKey
  force : Bool
deriving DecidableEq, Repr

/-- Orchestrator-visible state: the cache plus a count of provider
invocations (instrumentation for the at-most-once properties). -/
structure OrchState where
  cache : List (PeriodKey × SummaryArtifact)
  providerCalls : Nat
deriving DecidableEq, Repr

/-- Modelled from the spec: the analysis provider adapter (spec §4.5).
Empty input short-circuits to `unavailable` without calling the
provider; a provider failure is contained as an `error`-status
artifact. The returned flag records whether the provider was invoked. -/
def analyze (env : Env) (k : PeriodKey) (fp : Fingerprint) :
    SummaryArtifact × Bool :=
  match env.events with
  | [] => (⟨k, fp, env.now, .unavailable, "", none⟩, false)
  | _ :: _ =>
    match env.provider env.events with
    | .ok out => (⟨k, fp, env.now, .ok, out, none⟩, true)
    | .error msg => (⟨k, fp, env.now, .error, "", some msg⟩, true)

/-- Modelled from the spec: the fast-path freshness test (spec §4.6
step 4): matching fingerprint and status in `{ok, unavailable}`. -/
def isFresh (a : SummaryArtifact) (fp : Fingerprint) : Bool :=
  a.fingerprint == fp && (a.status == Status.ok || a.status == Status.unavailable)

/-- Modelled from the spec: the current-day special case guard (spec
§4.6 step 2): a non-force daily request for the in-progress day before
the user's generation trigger time. -/
def notYetAvailable (env : Env) (req : Request) : Bool :=
  req.key.periodType == PeriodType.day && req.key.periodStart == env.today &&
    !req.force && decide (env.localNow < env.triggerTime)

/-- The artifact returned by the current-day special case: status
`unavailable`, message "not yet available"; no aggregation has run, so
it carries no data fingerprint. -/
def earlyArtifact (k : PeriodKey) : SummaryArtifact :=
  ⟨k, .empty, 0, .unavailable, "", some "not yet available"⟩

/-- Modelled from the spec: compute through the adapter, store the
result keyed by the current fingerprint, count the provider call (spec
§4.6 step 5). -/
def computeAndStore (env : Env) (k : PeriodKey) (fp : Fingerprint)
    (st : OrchState) : SummaryArtifact × OrchState :=
  let r := analyze env k fp
  (r.1, ⟨cachePut st.cache k r.1, st.providerCalls + (if r.2 then 1 else 0)⟩)

/-- Modelled from the spec: the `get_summary` decision algorithm (spec
§4.6): current-day special case, then fingerprint, then fast path on a
fresh cache entry, otherwise compute and store. -/
def get_summary (env : Env) (req : Request) (st : OrchState) :
    SummaryArtifact × OrchState :=
  if notYetAvailable env req then (earlyArtifact req.key, st)
  else
    let fp := fingerprint env.events
    match cacheGet st.cache req.key with
    | some a =>
      if !req.force && isFresh a fp then (a, st)
      else computeAndStore env req.key fp st
    | none => computeAndStore env req.key fp st

/-- Modelled from the spec: `recalculate` is `get_summary` with
`force = true` (spec §4.6). -/
def recalculate (env : Env) (req : Request) (st : OrchState) :
    SummaryArtifact × OrchState :=
  get_summary env ⟨req.key, true⟩ st

/-- Shape of the `POST /summary/recalculate` response
(`api.recalculateSummary` in client.ts; the `recalculated` flag is
modelled from the spec §6). -/
structure RecalculateResponse where
  date : Nat
  summary : Option SummaryArtifact
  recalculated : Bool
deriving Repr

/-- Modelled from the spec: the force-recalculation endpoint; its
response adds `recalculated: true` (spec §6). -/
def recalculateEndpoint (env : Env) (req : Request) (st : OrchState) :
    RecalculateResponse × OrchState :=
  let r := recalculate env req st
  (⟨req.key.periodStart, some r.1, true⟩, r.2)

/-! ## The single-flight controller (spec §4.4), as a transition system

Concurrency is modelled by interleaving: an `arrive` event is a caller
requesting the key (becoming leader or attaching), a `complete` event
is the in-flight computation finishing (successfully or with an
error-status artifact) and publishing to every waiter. -/

/-- Modelled from the spec: single-flight controller state. `inFlight`
maps each in-flight key to its waiters (leader included);
`computeStarts` logs every `compute_fn` invocation; `delivered` logs
every (caller, artifact) delivery. -/
structure FlightState where
  inFlight : List (PeriodKey × List Nat)
  computeStarts : List PeriodKey
  delivered : List (Nat × SummaryArtifact)
deriving DecidableEq, Repr

/-- An interleaving event of the single-flight controller. -/
inductive FlightEvent where
  | arrive (caller : Nat) (key : PeriodKey)
  | complete (key : PeriodKey) (result : SummaryArtifact)
deriving Repr

/-- Waiter lookup in the in-flight registry. -/
def flightLookup (m : List (PeriodKey × List Nat)) (k : PeriodKey) :
    Option (List Nat) :=
  match m.find? (fun p => p.1 == k) with
  | some p => some p.2
  | none => none

/-- Replace the waiter list of key `k`. -/
def flightSet (m : List (PeriodKey × List Nat)) (k : PeriodKey)
    (ws : List Nat) : List (PeriodKey × List Nat) :=
  (k, ws) :: m.filter (fun p => !(p.1 == k))

/-- Clear the in-flight marker of key `k`. -/
def flightClear (m : List (PeriodKey × List Nat)) (k : PeriodKey) :
    List (PeriodKey × List Nat) :=
  m.filter (fun p => !(p.1 == k))

/-- Modelled from the spec: one step of the single-flight controller
(spec §4.4). An arriving caller attaches to an in-flight computation,
or becomes the leader and starts exactly one computation; a completion
publishes its result to every waiter and clears the marker. -/
def stepFlight (s : FlightState) (e : FlightEvent) : FlightState :=
  match e with
  | .arrive c k =>
    match flightLookup s.inFlight k with
    | some ws => ⟨flightSet s.inFlight k (ws ++ [c]), s.computeStarts, s.delivered⟩
    | none => ⟨flightSet s.inFlight k [c], s.computeStarts ++ [k], s.delivered⟩
  | .complete k a =>
    match flightLookup s.inFlight k with
    | some ws =>
      ⟨flightClear s.inFlight k, s.computeStarts, s.delivered ++ ws.map (fun c => (c, a))⟩
    | none => s

/-- Run a sequence of interleaved events. -/
def runFlight (s : FlightState) (es : List FlightEvent) : FlightState :=
  es.foldl stepFlight s

/-! ## Weekly aggregation of per-day data (spec §4.6) -/

/-- The sleep-relevant slice of the weekly payload: `sleep_average`
(`number | null` in `WeeklySummary`, types/index.ts) and the
missing-day marks required by the spec. -/
structure WeeklyPayload where
  sleepAverage : Option ℚ
  missingDays : List Nat
deriving DecidableEq, Repr

/-- The sleep scores of the days that actually have one. -/
def presentScores (days : List (Option Nat)) : List Nat :=
  days.filterMap id

/-- Modelled from the spec: weekly aggregation of the underlying days
(spec §4.6). `days` lists the week's days in order (index 0 = Monday),
each with an optional sleep score; the average is over exactly the days
that have a score, never defaulting missing days to zero, and the
payload marks the missing days. -/
def mkWeeklyPayload (days : List (Option Nat)) : WeeklyPayload :=
  let scores := presentScores days
  ⟨if scores.isEmpty then none
    else some ((scores.map (fun n => (n : ℚ))).sum / scores.length),
   (days.enum.filter (fun p => p.2.isNone)).map (fun p => p.1)⟩

/-! ## The frontend API client (`src/webapp/frontend/src/api/client.ts`) -/

/-- A field of a declared response shape: its name and whether the
TypeScript annotation marks it optional (`?`). -/
structure FieldSpec where
  name : String
  optional : Bool
deriving DecidableEq, Repr

/-- Response fields of `api.getTodaySummary` (client.ts lines 221-227):
`{date, summary: DailySummary | null, cached?: boolean, message?: string}`. -/
def getTodaySummaryFields : List FieldSpec :=
  [⟨"date", false⟩, ⟨"summary", false⟩, ⟨"cached", true⟩, ⟨"message", true⟩]

/-- Response fields of `api.getSummaryByDate` (client.ts lines 229-230):
`{date, summary: DailySummary | null}`. -/
def getSummaryByDateFields : List FieldSpec :=
  [⟨"date", false⟩, ⟨"summary", false⟩]

/-- Response fields of `api.recalculateSummary` (client.ts lines
232-236): `{date, summary: DailySummary | null, recalculated?: boolean}`. -/
def recalculateSummaryFields : List FieldSpec :=
  [⟨"date", false⟩, ⟨"summary", false⟩, ⟨"recalculated", true⟩]

/-- Response fields of `api.getCurrentWeekly` (client.ts lines 239-245):
`{week_start, summary: WeeklySummary | null, cached?: boolean, message?: string}`. -/
def getCurrentWeeklyFields : List FieldSpec :=
  [⟨"week_start", false⟩, ⟨"summary", false⟩, ⟨"cached", true⟩, ⟨"message", true⟩]

/-- Response fields of `api.getWeeklyByDate` (client.ts lines 247-250):
`{week_start, summary: WeeklySummary | null}`. -/
def getWeeklyByDateFields : List FieldSpec :=
  [⟨"week_start", false⟩, ⟨"summary", false⟩]

/-- Whether a declared response shape contains a field of this name. -/
def hasField (fs : List FieldSpec) (n : String) : Bool :=
  fs.any (fun f => f.name == n)

/-- The error body as `apiFetch` sees it after `response.json()`:
`detail` is the body's `detail` field when present (`none` when the
parsed object has no such field). -/
structure ErrorBody where
  detail : Option String
deriving DecidableEq, Repr

/-- An HTTP response as observed by `apiFetch`: its status, the
`X-Subscription-Status` header, the parse result of the body as an
error object (`none` when `response.json()` rejects), and the parsed
success value. -/
structure HttpResponse (α : Type) where
  status : Nat
  subscriptionHeader : Option String
  errorBody : Option ErrorBody
  value : α

/-- The outcome of `apiFetch`: a returned value, a thrown
`SubscriptionRequiredError`, or a thrown `ApiError` with message and
HTTP status. -/
inductive FetchOutcome (α : Type) where
  | success (value : α)
  | subscriptionRequired (msg : String)
  | apiError (msg : String) (status : Nat)
deriving DecidableEq, Repr

/-- The platform's `Response.ok`: status in the range 200-299. -/
def responseOk (status : Nat) : Bool :=
  decide (200 ≤ status) && decide (status < 300)

/-- `apiFetch` error handling, transcribed from client.ts lines 50-68:
a 403 whose `X-Subscription-Status` header is `inactive` throws
`SubscriptionRequiredError`; any other non-ok response throws
`ApiError(error.detail || 'Request failed', response.status)` where an
unparseable body is replaced by `{detail: 'Unknown error'}`; an ok
response returns the parsed body. The JavaScript `||` takes its right
operand when `detail` is absent or the empty string (both falsy). -/
def apiFetch {α : Type} (r : HttpResponse α) : FetchOutcome α :=
  if r.status == 403 && r.subscriptionHeader == some "inactive" then
    .subscriptionRequired "Subscription required"
  else if !(responseOk r.status) then
    let detail : Option String :=
      match r.errorBody with
      | none => some "Unknown error"
      | some eb => eb.detail
    .apiError
      (match detail with
       | some d => if d == "" then "Request failed" else d
       | none => "Request failed")
      r.status
  else .success r.value

/-! ## Onboarding time options and timezone offset
(`src/unnamed/part_003`, `src/webapp/frontend/src/store/useStore.ts`) -/

/-- `FeaturesStep.timeOptions` (part_003 lines 275-278). -/
def timeOptions : List String :=
  ["06:00", "07:00", "08:00", "09:00", "10:00", "11:00",
   "18:00", "19:00", "20:00", "21:00", "22:00", "23:00"]

/-- JavaScript `parseInt` restricted to base 10: parses the longest
leading digit run; `none` models `NaN`. -/
def jsParseInt (s : String) : Option Nat :=
  match s.data.takeWhile Char.isDigit with
  | [] => none
  | ds => some (ds.foldl (fun acc c => acc * 10 + (c.toNat - 48)) 0)

/-- The evening (`Вечерний итог`) select options:
`timeOptions.filter(t => parseInt(t) >= 18)` (part_003 line 359); a
`NaN` comparison is false. -/
def eveningOptions : List String :=
  timeOptions.filter (fun t =>
    match jsParseInt t with
    | some n => decide (18 ≤ n)
    | none => false)

/-- The morning sleep-question select options:
`timeOptions.filter(t => parseInt(t) <= 11)` (part_003 line 376). -/
def morningOptions : List String :=
  timeOptions.filter (fun t =>
    match jsParseInt t with
    | some n => decide (n ≤ 11)
    | none => false)

/-- `initialOnboardingData.evening_summary_time` (useStore.ts line 56). -/
def initialEveningSummaryTime : String := "21:00"

/-- `initialOnboardingData.morning_question_time` (useStore.ts line 57). -/
def initialMorningQuestionTime : String := "08:00"

/-- The value a `<select>`-backed store field holds after a sequence of
change events: each change replaces the current value. -/
def selectValue (dflt : String) (changes : List String) : String :=
  changes.foldl (fun _ u => u) dflt

/-- JavaScript `Date.prototype.getTimezoneOffset`: UTC minus local
time, in minutes; for a zone `minutesEast` minutes east of UTC it
returns `-minutesEast`. -/
def getTimezoneOffset (minutesEast : Int) : Int := -minutesEast

/-- `Onboarding.handleComplete` (part_003 line 418):
`const timezoneOffset = -new Date().getTimezoneOffset();` — the value
sent as `timezone_offset` in `saveOnboarding`. -/
def onboardingTimezoneOffset (minutesEast : Int) : Int :=
  -(getTimezoneOffset minutesEast)

/-! ## Helper lemmas for the orchestrator -/

lemma cacheGet_cachePut (c : List (PeriodKey × SummaryArtifact)) (k : PeriodKey)
    (a : SummaryArtifact) : cacheGet (cachePut c k a) k = some a := by
  have h : (((k, a) : PeriodKey × SummaryArtifact).1 == k) = true := by simp
  simp [cacheGet, cachePut, List.find?_cons_of_pos _ h]

lemma analyze_fingerprint (env : Env) (k : PeriodKey) (fp : Fingerprint) :
    (analyze env k fp).1.fingerprint = fp := by
  rcases h : env.events with _ | ⟨e, es⟩
  · simp [analyze, h]
  · rcases hp : env.provider (e :: es) with out | msg <;> simp [analyze, h, hp]

lemma analyze_of_ne_nil (env : Env) (k : PeriodKey) (fp : Fingerprint)
    (hne : env.events ≠ []) :
    (analyze env k fp).2 = true ∧ (analyze env k fp).1.generatedAt = env.now := by
  rcases h : env.events with _ | ⟨e, es⟩
  · exact absurd h hne
  · rcases hp : env.provider (e :: es) with out | msg <;> simp [analyze, h, hp]

lemma computeAndStore_cacheGet (env : Env) (k : PeriodKey) (fp : Fingerprint)
    (st : OrchState) :
    cacheGet (computeAndStore env k fp st).2.cache k = some (computeAndStore env k fp st).1 := by
  simp [computeAndStore, cacheGet_cachePut]

lemma computeAndStore_calls (env : Env) (k : PeriodKey) (fp : Fingerprint)
    (st : OrchState) :
    (computeAndStore env k fp st).2.providerCalls ≤ st.providerCalls + 1 := by
  simp only [computeAndStore]
  split <;> omega

lemma isFresh_of_status (a : SummaryArtifact) (fp : Fingerprint)
    (hfp : a.fingerprint = fp)
    (hst : a.status = Status.ok ∨ a.status = Status.unavailable) :
    isFresh a fp = true := by
  rcases hst with h | h <;> simp [isFresh, hfp, h]

lemma get_summary_not_early (env : Env) (req : Request) (st : OrchState)
    (h : notYetAvailable env req = false) :
    get_summary env req st =
      (match cacheGet st.cache req.key with
       | some a =>
         if !req.force && isFresh a (fingerprint env.events) then (a, st)
         else computeAndStore env req.key (fingerprint env.events) st
       | none => computeAndStore env req.key (fingerprint env.events) st) := by
  simp [get_summary, h]

/-- After any non-early `get_summary` call: the returned artifact is in
the cache under the request's key, it carries the current fingerprint,
and at most one provider call was spent. -/
lemma get_summary_facts (env : Env) (req : Request) (st : OrchState)
    (h1 : notYetAvailable env req = false) :
    cacheGet (get_summary env req st).2.cache req.key = some (get_summary env req st).1
  ∧ (get_summary env req st).1.fingerprint = fingerprint env.events
  ∧ (get_summary env req st).2.providerCalls ≤ st.providerCalls + 1 := by
  rw [get_summary_not_early env req st h1]
  cases hcg : cacheGet st.cache req.key with
  | none =>
    exact ⟨computeAndStore_cacheGet env req.key _ st,
      analyze_fingerprint env req.key _, computeAndStore_calls env req.key _ st⟩
  | some a =>
    by_cases hf : (!req.force && isFresh a (fingerprint env.events)) = true
    · have hfr : isFresh a (fingerprint env.events) = true := by
        rcases (Bool.and_eq_true _ _) ▸ hf with ⟨_, h2⟩
        exact h2
      have hfp : a.fingerprint = fingerprint env.events := by
        have h := hfr
        simp only [isFresh, Bool.and_eq_true, beq_iff_eq] at h
        exact h.1
      simp only [hf, if_true]
      exact ⟨hcg, hfp, Nat.le_succ _⟩
    · simp only [Bool.not_eq_true] at hf
      simp only [hf, Bool.false_eq_true, if_false]
      exact ⟨computeAndStore_cacheGet env req.key _ st,
        analyze_fingerprint env req.key _, computeAndStore_calls env req.key _ st⟩

/-! ## Claim theorems: the summary orchestrator -/

/-- Environment of a failing provider over one event, outside the
current-day window. -/
def envErr : Env := ⟨[evA], fun _ => Except.error "provider down", 5, 99, 0, 0⟩

/-- Environment of a succeeding provider over one event, outside the
current-day window. -/
def envOkE : Env := ⟨[evA], fun _ => Except.ok "analysis", 5, 99, 0, 0⟩

/-- Environment with an empty period, outside the current-day window. -/
def envEmptyE : Env := ⟨[], fun _ => Except.ok "analysis", 5, 99, 0, 0⟩

/-- A non-force daily request for day 1 (not the in-progress day of the
sample environments above). -/
def reqDay1 : Request := ⟨⟨8, PeriodType.day, 1, 0⟩, false⟩

/-- C2 counterexample: when the provider fails, the `error`-status
artifact is deliberately not served from the cache, so a second
non-force call with unchanged events invokes the provider a second
time — two calls spend two provider invocations, not at most one. -/
theorem get_summary_idempotent_counterexample :
    (get_summary envErr reqDay1 (get_summary envErr reqDay1 ⟨[], 0⟩).2).2.providerCalls = 2 := by
  decide

/-- C2 (amended): for a period whose events are unchanged between
calls, repeated non-force `get_summary` calls outside the current-day
pre-trigger window return byte-identical artifacts and spend at most
one provider invocation in total, provided the artifact computed for
the current fingerprint has status `ok` or `unavailable`; an
`error`-status artifact is not served from the cache (the fast path
requires status in `{ok, unavailable}`), so a failed computation is
re-attempted on the next call. In particular, when a cache entry with
matching fingerprint and status `ok` or `unavailable` exists, a
non-force call returns it unchanged with no provider call. -/
theorem get_summary_idempotent
    (env env2 : Env) (req : Request) (st : OrchState)
    (hev : env2.events = env.events)
    (hforce : req.force = false)
    (h1 : notYetAvailable env req = false)
    (h2 : notYetAvailable env2 req = false)
    (hstatus : (get_summary env req st).1.status = Status.ok ∨
               (get_summary env req st).1.status = Status.unavailable) :
    (get_summary env2 req (get_summary env req st).2).1 = (get_summary env req st).1
  ∧ (get_summary env2 req (get_summary env req st).2).2 = (get_summary env req st).2
  ∧ (get_summary env2 req (get_summary env req st).2).2.providerCalls ≤ st.providerCalls + 1
  ∧ (∀ a, cacheGet st.cache req.key = some a →
        isFresh a (fingerprint env.events) = true → get_summary env req st = (a, st)) := by
  have hfacts := get_summary_facts env req st h1
  have hfresh : isFresh (get_summary env req st).1 (fingerprint env2.events) = true := by
    rw [hev]
    exact isFresh_of_status _ _ hfacts.2.1 hstatus
  have hcall2 : get_summary env2 req (get_summary env req st).2
      = ((get_summary env req st).1, (get_summary env req st).2) := by
    rw [get_summary_not_early env2 req _ h2, hfacts.1]
    simp [hforce, hfresh]
  refine ⟨by rw [hcall2], by rw [hcall2], ?_, ?_⟩
  · rw [hcall2]
    exact hfacts.2.2
  · intro a hcg hfr
    rw [get_summary_not_early env req st h1, hcg]
    simp [hforce, hfr]

/-- Concrete witness for C2: with a succeeding provider, the second
call returns the very artifact of the first. -/
theorem get_summary_idempotent_witness :
    (get_summary envOkE reqDay1 (get_summary envOkE reqDay1 ⟨[], 0⟩).2).1
      = (get_summary envOkE reqDay1 ⟨[], 0⟩).1 :=
  (get_summary_idempotent envOkE envOkE reqDay1 ⟨[], 0⟩ rfl rfl (by decide) (by decide)
    (by decide)).1

/-- C3 counterexample: over an empty period, `recalculate`
short-circuits in the adapter (spec §4.5) and performs no provider
invocation at all, returning an `unavailable` artifact. -/
theorem recalculate_force_counterexample :
    (recalculate envEmptyE reqDay1 ⟨[], 0⟩).2.providerCalls = 0
  ∧ (recalculate envEmptyE reqDay1 ⟨[], 0⟩).1.status = Status.unavailable := by
  exact ⟨by decide, by decide⟩

/-- C3 (amended): for every well-formed request over a period with at
least one event, `recalculate` invokes the analysis provider exactly
once regardless of whether the stored fingerprint matches the current
one; under a monotone clock (every previously stored artifact predates
`now`) the returned artifact's `generated_at` is strictly greater than
the previously stored artifact's; and the POST response carries
`recalculated: true`. Empty periods short-circuit to `unavailable`
without a provider call. -/
theorem recalculate_force_spec
    (env : Env) (req : Request) (st : OrchState)
    (hne : env.events ≠ [])
    (hclock : ∀ aPrev, cacheGet st.cache req.key = some aPrev →
        aPrev.generatedAt < env.now) :
    (recalculate env req st).2.providerCalls = st.providerCalls + 1
  ∧ (∀ aPrev, cacheGet st.cache req.key = some aPrev →
      aPrev.generatedAt < (recalculate env req st).1.generatedAt)
  ∧ (recalculateEndpoint env req st).1.recalculated = true := by
  have hny : notYetAvailable env ⟨req.key, true⟩ = false := by
    simp [notYetAvailable]
  have hana := analyze_of_ne_nil env req.key (fingerprint env.events) hne
  have hcs : recalculate env req st =
      computeAndStore env req.key (fingerprint env.events) st := by
    unfold recalculate
    rw [get_summary_not_early _ _ _ hny]
    cases hcg : cacheGet st.cache req.key with
    | none => rfl
    | some a => simp
  refine ⟨?_, ?_, rfl⟩
  · rw [hcs]
    simp only [computeAndStore, hana.1, if_true]
  · intro aPrev hPrev
    rw [hcs]
    have : (computeAndStore env req.key (fingerprint env.events) st).1.generatedAt
        = env.now := hana.2
    rw [this]
    exact hclock aPrev hPrev

/-- Concrete witness for C3: one forced recalculation over a one-event
period spends exactly one provider call. -/
theorem recalculate_force_spec_witness :
    (recalculate envOkE reqDay1 ⟨[], 0⟩).2.providerCalls
      = (⟨[], 0⟩ : OrchState).providerCalls + 1 :=
  (recalculate_force_spec envOkE reqDay1 ⟨[], 0⟩ (by decide)
    (by intro a h; simp [cacheGet] at h)).1

/-- C5: for a non-force daily request whose period is the in-progress
day, with the user-local time before the configured trigger time,
`get_summary` returns an `unavailable` artifact with message
"not yet available", leaves the state (cache, provider-call count)
untouched, and its result does not depend on the period's events or on
the cache — they are not consulted, and no negative result is written. -/
theorem current_day_special_case
    (env : Env) (req : Request) (st : OrchState)
    (hforce : req.force = false)
    (hday : req.key.periodType = PeriodType.day)
    (htoday : req.key.periodStart = env.today)
    (hbefore : env.localNow < env.triggerTime) :
    get_summary env req st = (earlyArtifact req.key, st)
  ∧ (earlyArtifact req.key).status = Status.unavailable
  ∧ (earlyArtifact req.key).message = some "not yet available"
  ∧ (∀ (events2 : List RawEvent) (st2 : OrchState),
      get_summary ⟨events2, env.provider, env.now, env.today, env.localNow,
        env.triggerTime⟩ req st2 = (earlyArtifact req.key, st2)) := by
  have hny : notYetAvailable env req = true := by
    simp [notYetAvailable, hday, htoday, hforce, hbefore]
  refine ⟨by simp [get_summary, hny], rfl, rfl, ?_⟩
  intro es st2
  have hny2 : notYetAvailable ⟨es, env.provider, env.now, env.today, env.localNow,
      env.triggerTime⟩ req = true := by
    simp [notYetAvailable, hday, htoday, hforce, hbefore]
  simp [get_summary, hny2]

/-- Environment whose local time is before the trigger time, with the
in-progress day being day 1. -/
def envToday : Env := ⟨[evA], fun _ => Except.ok "analysis", 5, 1, 10, 20⟩

/-- A non-force daily request for the in-progress day of `envToday`. -/
def reqToday : Request := ⟨⟨8, PeriodType.day, 1, 0⟩, false⟩

/-- Concrete witness for C5: the pre-trigger current-day request
returns the "not yet available" artifact and leaves the state alone. -/
theorem current_day_special_case_witness :
    get_summary envToday reqToday ⟨[], 0⟩ = (earlyArtifact reqToday.key, ⟨[], 0⟩) :=
  (current_day_special_case envToday reqToday ⟨[], 0⟩ rfl rfl rfl (by decide)).1

/-! ## Helper lemmas for the single-flight controller -/

lemma flightLookup_flightSet (m : List (PeriodKey × List Nat)) (k : PeriodKey)
    (ws : List Nat) : flightLookup (flightSet m k ws) k = some ws := by
  have h : (((k, ws) : PeriodKey × List Nat).1 == k) = true := by simp
  simp [flightLookup, flightSet, List.find?_cons_of_pos _ h]

lemma flightLookup_flightClear (m : List (PeriodKey × List Nat)) (k : PeriodKey) :
    flightLookup (flightClear m k) k = none := by
  have h : (flightClear m k).find? (fun p => p.1 == k) = none := by
    rw [List.find?_eq_none]
    intro x hx
    have hmem := (List.mem_filter.mp hx).2
    simpa using hmem
  simp [flightLookup, h]

lemma stepFlight_arrive_inflight (s : FlightState) (c : Nat) (k : PeriodKey)
    (ws : List Nat) (h : flightLookup s.inFlight k = some ws) :
    stepFlight s (.arrive c k) =
      ⟨flightSet s.inFlight k (ws ++ [c]), s.computeStarts, s.delivered⟩ := by
  simp [stepFlight, h]

lemma stepFlight_arrive_none (s : FlightState) (c : Nat) (k : PeriodKey)
    (h : flightLookup s.inFlight k = none) :
    stepFlight s (.arrive c k) =
      ⟨flightSet s.inFlight k [c], s.computeStarts ++ [k], s.delivered⟩ := by
  simp [stepFlight, h]

lemma stepFlight_complete_eq (s : FlightState) (k : PeriodKey) (a : SummaryArtifact)
    (ws : List Nat) (h : flightLookup s.inFlight k = some ws) :
    stepFlight s (.complete k a) =
      ⟨flightClear s.inFlight k, s.computeStarts,
        s.delivered ++ ws.map (fun c => (c, a))⟩ := by
  simp [stepFlight, h]

/-- Observations after a run of attach events for an in-flight key:
no new computation starts, the waiters accumulate in order, nothing is
delivered yet. -/
lemma runFlight_arrives (cs : List Nat) :
    ∀ (s : FlightState) (k : PeriodKey) (ws : List Nat),
    flightLookup s.inFlight k = some ws →
    (runFlight s (cs.map (fun c => .arrive c k))).computeStarts = s.computeStarts
    ∧ flightLookup (runFlight s (cs.map (fun c => .arrive c k))).inFlight k
        = some (ws ++ cs)
    ∧ (runFlight s (cs.map (fun c => .arrive c k))).delivered = s.delivered := by
  induction cs with
  | nil =>
    intro s k ws h
    exact ⟨rfl, by simpa using h, rfl⟩
  | cons c cs ih =>
    intro s k ws h
    have hstep := stepFlight_arrive_inflight s c k ws h
    have hlk : flightLookup (stepFlight s (.arrive c k)).inFlight k = some (ws ++ [c]) := by
      rw [hstep]
      exact flightLookup_flightSet _ _ _
    have hrec := ih (stepFlight s (.arrive c k)) k (ws ++ [c]) hlk
    have hrun : runFlight s ((c :: cs).map (fun c => FlightEvent.arrive c k))
        = runFlight (stepFlight s (.arrive c k))
            (cs.map (fun c => FlightEvent.arrive c k)) := rfl
    rw [hrun]
    refine ⟨?_, ?_, ?_⟩
    · rw [hrec.1, hstep]
    · rw [hrec.2.1]
      simp
    · rw [hrec.2.2, hstep]

/-! ## Claim theorems: the single-flight controller -/

/-- C1: with no computation in flight for a key, N callers arriving for
it (in any count N ≥ 1) cause exactly one `compute_fn` start; the one
completion — including an error-status one when the leader throws —
delivers the same artifact to every one of the N callers and clears the
in-flight marker, so no key stays permanently in flight; and a caller
arriving while the key is in flight attaches to the existing waiters
and starts no second computation. -/
theorem single_flight_spec :
    (∀ (s : FlightState) (k : PeriodKey) (callers : List Nat) (a : SummaryArtifact),
      flightLookup s.inFlight k = none → callers ≠ [] →
      (runFlight s (callers.map (fun c => .arrive c k)
          ++ [.complete k a])).computeStarts = s.computeStarts ++ [k]
      ∧ (∀ c ∈ callers, (c, a) ∈ (runFlight s (callers.map (fun c => .arrive c k)
          ++ [.complete k a])).delivered)
      ∧ flightLookup (runFlight s (callers.map (fun c => .arrive c k)
          ++ [.complete k a])).inFlight k = none)
  ∧ (∀ (s : FlightState) (c : Nat) (k : PeriodKey) (ws : List Nat),
      flightLookup s.inFlight k = some ws →
      (stepFlight s (.arrive c k)).computeStarts = s.computeStarts
      ∧ flightLookup (stepFlight s (.arrive c k)).inFlight k = some (ws ++ [c]))
  ∧ (∀ (s : FlightState) (k : PeriodKey) (ws : List Nat) (a : SummaryArtifact),
      flightLookup s.inFlight k = some ws → a.status = Status.error →
      (∀ c ∈ ws, (c, a) ∈ (stepFlight s (.complete k a)).delivered)
      ∧ flightLookup (stepFlight s (.complete k a)).inFlight k = none) := by
  refine ⟨?_, ?_, ?_⟩
  · intro s k callers a hnone hne
    cases callers with
    | nil => exact absurd rfl hne
    | cons c cs =>
      have hstep := stepFlight_arrive_none s c k hnone
      have hlk : flightLookup (stepFlight s (.arrive c k)).inFlight k = some [c] := by
        rw [hstep]
        exact flightLookup_flightSet _ _ _
      have harr := runFlight_arrives cs (stepFlight s (.arrive c k)) k [c] hlk
      have hsplit : runFlight s ((c :: cs).map (fun c => FlightEvent.arrive c k)
            ++ [.complete k a])
          = stepFlight (runFlight (stepFlight s (.arrive c k))
              (cs.map (fun c => FlightEvent.arrive c k))) (.complete k a) := by
        simp [runFlight, List.foldl_append]
      have hfin := stepFlight_complete_eq
        (runFlight (stepFlight s (.arrive c k)) (cs.map (fun c => FlightEvent.arrive c k)))
        k a (c :: cs) (by simpa using harr.2.1)
      rw [hsplit, hfin]
      refine ⟨?_, ?_, ?_⟩
      · rw [harr.1, hstep]
      · intro c2 hc2
        simp only [List.mem_append]
        exact Or.inr (List.mem_map_of_mem _ hc2)
      · exact flightLookup_flightClear _ _
  · intro s c k ws h
    rw [stepFlight_arrive_inflight s c k ws h]
    exact ⟨rfl, flightLookup_flightSet _ _ _⟩
  · intro s k ws a h hstatus
    rw [stepFlight_complete_eq s k a ws h]
    refine ⟨?_, flightLookup_flightClear _ _⟩
    intro c hc
    simp only [List.mem_append]
    exact Or.inr (List.mem_map_of_mem _ hc)

/-- The empty single-flight state. -/
def flightS0 : FlightState := ⟨[], [], []⟩

/-- Key used in the single-flight witness. -/
def keyW : PeriodKey := ⟨8, PeriodType.day, 1, 0⟩

/-- An error-status artifact, as published when the leader throws. -/
def errArt : SummaryArtifact :=
  ⟨keyW, Fingerprint.empty, 0, Status.error, "", some "provider down"⟩

/-- Concrete witness for C1: three concurrent callers on an idle key
cause one computation start; the (error) completion reaches caller 1
and clears the marker. -/
theorem single_flight_spec_witness :
    (runFlight flightS0 ([1, 2, 3].map (fun c => FlightEvent.arrive c keyW)
        ++ [FlightEvent.complete keyW errArt])).computeStarts
      = flightS0.computeStarts ++ [keyW]
  ∧ (1, errArt) ∈ (runFlight flightS0 ([1, 2, 3].map (fun c => FlightEvent.arrive c keyW)
        ++ [FlightEvent.complete keyW errArt])).delivered
  ∧ flightLookup (runFlight flightS0 ([1, 2, 3].map (fun c => FlightEvent.arrive c keyW)
        ++ [FlightEvent.complete keyW errArt])).inFlight keyW = none := by
  have h := single_flight_spec.1 flightS0 keyW [1, 2, 3] errArt (by decide) (by decide)
  exact ⟨h.1, h.2.1 1 (by decide), h.2.2⟩

/-! ## Claim theorems: weekly aggregation -/

lemma presentScores_filter (days : List (Option Nat)) :
    presentScores (days.filter Option.isSome) = presentScores days := by
  induction days with
  | nil => rfl
  | cons d ds ih =>
    cases d with
    | none => simpa [presentScores, List.filter_cons] using ih
    | some v => simpa [presentScores, List.filter_cons] using ih

/-- C6: the weekly `sleep_average` is the arithmetic mean of exactly
the days that have a sleep score — days without one neither enter the
average (removing them changes nothing) nor count as zero; the payload
marks precisely the missing days; a week with no sleep scores yields
`null` (`none`), not 0; and the Monday/Tuesday/Friday scenario yields
the mean of those three values with the other four days flagged. -/
theorem weekly_sleep_average_spec :
    (∀ days : List (Option Nat), presentScores days ≠ [] →
        (mkWeeklyPayload days).sleepAverage =
          some (((presentScores days).map (fun n => (n : ℚ))).sum /
            (presentScores days).length))
  ∧ (∀ days : List (Option Nat),
        (mkWeeklyPayload days).sleepAverage =
          (mkWeeklyPayload (days.filter Option.isSome)).sleepAverage)
  ∧ (∀ (days : List (Option Nat)) (i : Nat),
        i ∈ (mkWeeklyPayload days).missingDays ↔ days[i]? = some none)
  ∧ (∀ days : List (Option Nat), presentScores days = [] →
        (mkWeeklyPayload days).sleepAverage = none)
  ∧ (∀ a b c : Nat,
        (mkWeeklyPayload [some a, some b, none, none, some c, none, none]).sleepAverage
          = some (((a : ℚ) + b + c) / 3)
      ∧ (mkWeeklyPayload [some a, some b, none, none, some c, none, none]).missingDays
          = [2, 3, 5, 6]) := by
  refine ⟨?_, ?_, ?_, ?_, ?_⟩
  · intro days hne
    simp only [mkWeeklyPayload]
    rw [if_neg (by simpa [List.isEmpty_iff] using hne)]
  · intro days
    simp only [mkWeeklyPayload, presentScores_filter]
  · intro days i
    constructor
    · intro h
      obtain ⟨p, hp, hpi⟩ := List.mem_map.mp h
      have hf := List.mem_filter.mp hp
      have henum : (p.1, p.2) ∈ days.enum := by
        rw [Prod.mk.eta]
        exact hf.1
      have hget := List.mk_mem_enum_iff_getElem?.mp henum
      have hnone : p.2 = none := Option.isNone_iff_eq_none.mp hf.2
      rw [hpi, hnone] at hget
      exact hget
    · intro h
      have henum : (i, (none : Option Nat)) ∈ days.enum :=
        List.mk_mem_enum_iff_getElem?.mpr h
      refine List.mem_map.mpr ⟨(i, none), List.mem_filter.mpr ⟨henum, rfl⟩, rfl⟩
  · intro days h
    simp [mkWeeklyPayload, h]
  · intro a b c
    constructor
    · show some _ = some _
      have hs : presentScores [some a, some b, none, none, some c, none, none]
          = [a, b, c] := rfl
      simp only [mkWeeklyPayload, hs]
      norm_num
      ring
    · rfl

/-- Concrete witness for C6: a week with a single scored day averages
to exactly that score over one day. -/
theorem weekly_sleep_average_spec_witness :
    (mkWeeklyPayload [some 4, none]).sleepAverage =
      some (((presentScores [some 4, none]).map (fun n => (n : ℚ))).sum /
        (presentScores [some 4, none]).length) :=
  weekly_sleep_average_spec.1 [some 4, none] (by decide)

/-! ## Helper lemmas for the client and onboarding models -/

lemma selectValue_mem (dflt : String) (changes : List String) :
    selectValue dflt changes = dflt ∨ selectValue dflt changes ∈ changes := by
  induction changes generalizing dflt with
  | nil => exact Or.inl rfl
  | cons c cs ih =>
    have hstep : selectValue dflt (c :: cs) = selectValue c cs := rfl
    rw [hstep]
    rcases ih c with h | h
    · exact Or.inr (by rw [h]; simp)
    · exact Or.inr (by simp [h])

/-! ## Claim theorems: client and onboarding -/

/-- C7 counterexample: the by-date endpoints' declared response shapes
carry neither `cached` nor `message`, and the weekly shapes key by
`week_start`, not `period_start`. -/
theorem summary_response_shapes_counterexample :
    hasField getSummaryByDateFields "cached" = false
  ∧ hasField getSummaryByDateFields "message" = false
  ∧ hasField getWeeklyByDateFields "cached" = false
  ∧ hasField getWeeklyByDateFields "message" = false
  ∧ hasField getCurrentWeeklyFields "period_start" = false := by
  decide

/-- C7 (amended): the today/current summary endpoints declare
`{date | week_start, summary, cached?: bool, message?: string}`, with
`cached` and `message` optional; the by-date endpoints declare only
`{date | week_start, summary}` with no `cached` flag and no `message`;
the weekly responses are keyed by `week_start` rather than
`period_start`. -/
theorem summary_response_shapes :
    (hasField getTodaySummaryFields "date" ∧ hasField getTodaySummaryFields "summary"
      ∧ hasField getTodaySummaryFields "cached" ∧ hasField getTodaySummaryFields "message")
  ∧ (hasField getCurrentWeeklyFields "week_start" ∧ hasField getCurrentWeeklyFields "summary"
      ∧ hasField getCurrentWeeklyFields "cached" ∧ hasField getCurrentWeeklyFields "message")
  ∧ (hasField getSummaryByDateFields "date" ∧ hasField getSummaryByDateFields "summary"
      ∧ ¬hasField getSummaryByDateFields "cached" ∧ ¬hasField getSummaryByDateFields "message")
  ∧ (hasField getWeeklyByDateFields "week_start" ∧ hasField getWeeklyByDateFields "summary"
      ∧ ¬hasField getWeeklyByDateFields "cached" ∧ ¬hasField getWeeklyByDateFields "message")
  ∧ (∀ fs ∈ [getTodaySummaryFields, getSummaryByDateFields, getCurrentWeeklyFields,
        getWeeklyByDateFields, recalculateSummaryFields], ∀ f ∈ fs,
        f.name = "cached" ∨ f.name = "message" ∨ f.name = "recalculated" → f.optional) := by
  decide

/-- C9: the onboarding `FeaturesStep` only offers evening summary times
in `{18:00..23:00}` and morning question times in `{06:00..11:00}`; the
store's defaults are `21:00` and `08:00`; hence every evening trigger
time reachable through onboarding (default or any sequence of select
changes) parses to an hour at or after 18. -/
theorem trigger_time_options_spec :
    eveningOptions = ["18:00", "19:00", "20:00", "21:00", "22:00", "23:00"]
  ∧ morningOptions = ["06:00", "07:00", "08:00", "09:00", "10:00", "11:00"]
  ∧ initialEveningSummaryTime = "21:00"
  ∧ initialMorningQuestionTime = "08:00"
  ∧ (∀ changes : List String, (∀ u ∈ changes, u ∈ eveningOptions) →
      18 ≤ (jsParseInt (selectValue initialEveningSummaryTime changes)).getD 0) := by
  refine ⟨by decide, by decide, rfl, rfl, ?_⟩
  intro changes hmem
  rcases selectValue_mem initialEveningSummaryTime changes with h | h
  · rw [h]
    decide
  · have hall : ∀ t ∈ eveningOptions, 18 ≤ (jsParseInt t).getD 0 := by decide
    exact hall _ (hmem _ h)

/-- Concrete witness for C9: after selecting "18:00" the stored evening
time still parses to an hour at or after 18. -/
theorem trigger_time_options_spec_witness :
    18 ≤ (jsParseInt (selectValue initialEveningSummaryTime ["18:00"])).getD 0 :=
  trigger_time_options_spec.2.2.2.2 ["18:00"] (by decide)

/-- C8 counterexample: a 500 response whose JSON body carries
`detail: ""` — the detail field present but empty — is thrown as
`ApiError` with message "Request failed", not with the body's detail
field: JavaScript's `||` treats the empty string as falsy. -/
theorem apiFetch_contract_counterexample :
    apiFetch (⟨500, none, some ⟨some ""⟩, ()⟩ : HttpResponse Unit)
      = .apiError "Request failed" 500
  ∧ (⟨500, none, some ⟨some ""⟩, ()⟩ : HttpResponse Unit).errorBody = some ⟨some ""⟩
  ∧ "Request failed" ≠ "" := by
  refine ⟨by decide, rfl, by decide⟩

/-- C8 (amended): `apiFetch` returns the parsed body exactly for an ok
response; a 403 with `X-Subscription-Status: inactive` throws
`SubscriptionRequiredError`; every other non-ok response throws an
`ApiError` whose status equals the HTTP status and whose message is the
body's `detail` field when present and non-empty, "Request failed" when
`detail` is absent or the empty string, and "Unknown error" when the
body is not parseable JSON; a value is never returned for a non-ok
response. -/
theorem apiFetch_contract {α : Type} (r : HttpResponse α) :
    (responseOk r.status = true → apiFetch r = .success r.value)
  ∧ (r.status = 403 → r.subscriptionHeader = some "inactive" →
      apiFetch r = .subscriptionRequired "Subscription required")
  ∧ (responseOk r.status = false →
      ¬(r.status = 403 ∧ r.subscriptionHeader = some "inactive") →
      ∀ eb d, r.errorBody = some eb → eb.detail = some d → d ≠ "" →
        apiFetch r = .apiError d r.status)
  ∧ (responseOk r.status = false →
      ¬(r.status = 403 ∧ r.subscriptionHeader = some "inactive") →
      ∀ eb, r.errorBody = some eb → (eb.detail = none ∨ eb.detail = some "") →
        apiFetch r = .apiError "Request failed" r.status)
  ∧ (responseOk r.status = false →
      ¬(r.status = 403 ∧ r.subscriptionHeader = some "inactive") →
      r.errorBody = none → apiFetch r = .apiError "Unknown error" r.status)
  ∧ (responseOk r.status = false → ∀ v, apiFetch r ≠ .success v) := by
  refine ⟨?_, ?_, ?_, ?_, ?_, ?_⟩
  · intro hok
    have hne : r.status ≠ 403 := by
      simp only [responseOk, Bool.and_eq_true, decide_eq_true_eq] at hok
      omega
    have h403 : (r.status == 403) = false := beq_eq_false_iff_ne.mpr hne
    simp [apiFetch, h403, hok]
  · intro h1 h2
    simp [apiFetch, h1, h2]
  · intro hok hnot eb d heb hd hne
    have hcond : (r.status == 403 && r.subscriptionHeader == some "inactive") = false := by
      rw [Bool.and_eq_false_iff]
      by_cases h : r.status = 403
      · exact Or.inr (beq_eq_false_iff_ne.mpr (fun hh => hnot ⟨h, hh⟩))
      · exact Or.inl (beq_eq_false_iff_ne.mpr h)
    have hds : (d == "") = false := beq_eq_false_iff_ne.mpr hne
    simp [apiFetch, hcond, hok, heb, hd, hds]
  · intro hok hnot eb heb hd
    have hcond : (r.status == 403 && r.subscriptionHeader == some "inactive") = false := by
      rw [Bool.and_eq_false_iff]
      by_cases h : r.status = 403
      · exact Or.inr (beq_eq_false_iff_ne.mpr (fun hh => hnot ⟨h, hh⟩))
      · exact Or.inl (beq_eq_false_iff_ne.mpr h)
    rcases hd with hd | hd <;> simp [apiFetch, hcond, hok, heb, hd]
  · intro hok hnot heb
    have hcond : (r.status == 403 && r.subscriptionHeader == some "inactive") = false := by
      rw [Bool.and_eq_false_iff]
      by_cases h : r.status = 403
      · exact Or.inr (beq_eq_false_iff_ne.mpr (fun hh => hnot ⟨h, hh⟩))
      · exact Or.inl (beq_eq_false_iff_ne.mpr h)
    simp [apiFetch, hcond, hok, heb]
  · intro hok v
    by_cases hcond : (r.status == 403 && r.subscriptionHeader == some "inactive") = true
    · simp [apiFetch, hcond]
    · simp only [Bool.not_eq_true] at hcond
      cases heb : r.errorBody <;> simp [apiFetch, hcond, hok, heb]

/-- Concrete witness for C8: a plain 404 with a parseable body carrying
`detail: "Not found"` is thrown as `ApiError "Not found" 404`. -/
theorem apiFetch_contract_witness :
    apiFetch (⟨404, none, some ⟨some "Not found"⟩, ()⟩ : HttpResponse Unit)
      = .apiError "Not found" 404 :=
  (apiFetch_contract (⟨404, none, some ⟨some "Not found"⟩, ()⟩ : HttpResponse Unit)).2.2.1
    (by decide) (by simp) ⟨some "Not found"⟩ "Not found" rfl rfl (by decide)

/-- C10: the `timezone_offset` sent by `Onboarding.handleComplete` is
the negation of JavaScript's `getTimezoneOffset`, i.e. the user's
offset in minutes east of UTC (positive when local time is ahead of
UTC), for every browser timezone. -/
theorem timezone_offset_sign_spec :
    ∀ minutesEast : Int,
      onboardingTimezoneOffset minutesEast = -(getTimezoneOffset minutesEast)
    ∧ onboardingTimezoneOffset minutesEast = minutesEast := by
  intro e
  exact ⟨rfl, by simp [onboardingTimezoneOffset, getTimezoneOffset]⟩

end YourBodyPro
